import Mathlib

/-!
Verification of the product-inventory UI logic of xshopai/admin-ui.

The embedding models, from `src/pages/LoginPage.tsx` (the `ProductsPage`
component) and `src/pages/AddProductPage.tsx`:

* the inventory cache (`Record<string, InventoryData>`) as an association
  list with JavaScript-object lookup semantics (later spread wins, modelled
  by putting newer entries first);
* `getTotalStock`, `hasInventoryLoaded`, the `StockBadge` classification;
* `toggleExpand` both as an atomic function (fetch resolved in place) and
  as a small-step event system exposing the in-flight fetches, to reason
  about interleavings of toggles and fetch completions;
* `generateSkuPreview` with its regex-based string processing.

JavaScript numbers that hold stock quantities are modelled as `Int`
(they are integral in all observed uses; `x || 0` on an integer equals
`x` when the entry is present, since `0 || 0 = 0`).
-/

namespace AdminUI

/-- `interface InventoryData` from LoginPage.tsx (lines 254-258). -/
structure InventoryData where
  sku : String
  quantityAvailable : Int
  quantityReserved : Int
deriving Repr, DecidableEq

/-- `interface ProductVariant` from LoginPage.tsx (lines 241-246);
`initial_stock` is unused by the modelled code and omitted. -/
structure ProductVariant where
  sku : String
  color : Option String := none
  size : Option String := none
deriving Repr, DecidableEq

/-- The inventory cache `Record<string, InventoryData>`: association list,
first binding for a key wins (so `{...prev, ...new}` is `new ++ prev`). -/
abbrev InventoryCache := List (String × InventoryData)

/-- JS property read `cache[sku]`: `undefined` becomes `none`. -/
def lookupSku (cache : InventoryCache) (sku : String) : Option InventoryData :=
  cache.lookup sku

/-- The object spread `{ ...prev, ...data }` used in `setInventoryCache`:
keys of `data` override keys of `prev`. -/
def mergeCache (prev data : InventoryCache) : InventoryCache :=
  data ++ prev

/-- `getTotalStock` (LoginPage.tsx lines 447-453): reduce over the variants
adding `inv?.quantityAvailable || 0` (which equals the stored integer when
the entry is present, `0` when absent). -/
def getTotalStock (cache : InventoryCache) (variants : List ProductVariant) : Int :=
  variants.foldl
    (fun sum variant =>
      sum + (match lookupSku cache variant.sku with
             | some inv => inv.quantityAvailable
             | none => 0))
    0

/-- `hasInventoryLoaded` (LoginPage.tsx lines 456-459): every variant's SKU
is a key of the cache; vacuously true on the empty list. -/
def hasInventoryLoaded (cache : InventoryCache) (variants : List ProductVariant) : Bool :=
  variants.all (fun v => (lookupSku cache v.sku).isSome)

/-- The three-way classification rendered by `StockBadge`
(LoginPage.tsx lines 286-293). -/
inductive StockStatus where
  | OutOfStock
  | Low
  | InStock
deriving Repr, DecidableEq

/-- `StockBadge`: `quantity === 0` gives the error badge (out of stock),
else `quantity < 10` the warning badge (low), else the success badge. -/
def stockStatus (quantity : Int) : StockStatus :=
  if quantity = 0 then StockStatus.OutOfStock
  else if quantity < 10 then StockStatus.Low
  else StockStatus.InStock

/-- Folding addition of a mapped value equals the initial value plus the
sum of the mapped list. -/
theorem foldl_add_map_sum (f : ProductVariant → Int) :
    ∀ (l : List ProductVariant) (a : Int),
      l.foldl (fun s v => s + f v) a = a + (l.map f).sum := by
  intro l
  induction l with
  | nil => intro a; simp
  | cons x xs ih =>
    intro a
    simp only [List.foldl_cons, List.map_cons, List.sum_cons]
    rw [ih]
    ring

/-- The per-variant contribution to `getTotalStock`. -/
def variantStock (cache : InventoryCache) (v : ProductVariant) : Int :=
  match lookupSku cache v.sku with
  | some inv => inv.quantityAvailable
  | none => 0

theorem getTotalStock_eq_sum (cache : InventoryCache) (variants : List ProductVariant) :
    getTotalStock cache variants = (variants.map (variantStock cache)).sum := by
  unfold getTotalStock variantStock
  rw [foldl_add_map_sum]
  simp

/-- Example cache with SKUs X (available 5) and Y (available 3). -/
def cacheXY : InventoryCache :=
  [("X", ⟨"X", 5, 0⟩), ("Y", ⟨"Y", 3, 0⟩)]

/-- Example cache with only SKU X (available 5). -/
def cacheXonly : InventoryCache :=
  [("X", ⟨"X", 5, 0⟩)]

/-- Variants with SKUs X and Y. -/
def variantsXY : List ProductVariant :=
  [⟨"X", none, none⟩, ⟨"Y", none, none⟩]

/-- C1: `getTotalStock` sums `cache[v.sku].quantityAvailable` over the
variants, a missing cache entry contributing `0`; it returns `0` on the
empty variant list; with X (5) and Y (3) cached it returns `8`; with Y
absent it returns `5` and `hasInventoryLoaded` returns `false`. -/
theorem getTotalStock_spec :
    (∀ (cache : InventoryCache) (variants : List ProductVariant),
        getTotalStock cache variants = (variants.map (variantStock cache)).sum)
    ∧ (∀ cache : InventoryCache, getTotalStock cache [] = 0)
    ∧ getTotalStock cacheXY variantsXY = 8
    ∧ (getTotalStock cacheXonly variantsXY = 5
        ∧ hasInventoryLoaded cacheXonly variantsXY = false) := by
  refine ⟨getTotalStock_eq_sum, fun cache => rfl, by decide, by decide, by decide⟩

/-- C9: for nonnegative quantities, the badge is out-of-stock exactly at
`0`, low exactly strictly between `0` and `10`, in-stock exactly from `10`
up; and `stockStatus 0 = OutOfStock`, `stockStatus 9 = Low`,
`stockStatus 10 = InStock`. -/
theorem stockStatus_spec (q : Int) (h : 0 ≤ q) :
    (stockStatus q = StockStatus.OutOfStock ↔ q = 0)
    ∧ (stockStatus q = StockStatus.Low ↔ 0 < q ∧ q < 10)
    ∧ (stockStatus q = StockStatus.InStock ↔ 10 ≤ q)
    ∧ stockStatus 0 = StockStatus.OutOfStock
    ∧ stockStatus 9 = StockStatus.Low
    ∧ stockStatus 10 = StockStatus.InStock := by
  unfold stockStatus
  refine ⟨?_, ?_, ?_, by decide, by decide, by decide⟩
  · constructor
    · intro hs
      by_contra hq
      simp [hq] at hs
      split at hs <;> simp_all
    · intro hq; simp [hq]
  · constructor
    · intro hs
      by_cases h0 : q = 0
      · simp [h0] at hs
      · by_cases h10 : q < 10
        · exact ⟨lt_of_le_of_ne h (Ne.symm h0), h10⟩
        · simp [h0, h10] at hs
    · intro ⟨h0, h10⟩
      simp [ne_of_gt h0, h10]
  · constructor
    · intro hs
      by_cases h0 : q = 0
      · simp [h0] at hs
      · by_cases h10 : q < 10
        · simp [h0, h10] at hs
        · omega
    · intro h10
      have h0 : q ≠ 0 := by omega
      have hlt : ¬ q < 10 := by omega
      simp [h0, hlt]

/-- Witness for C9 at `q = 9`. -/
theorem stockStatus_spec_witness :
    (0 : Int) ≤ 9 ∧ (stockStatus 9 = StockStatus.Low ↔ (0 : Int) < 9 ∧ (9 : Int) < 10) :=
  ⟨by decide, (stockStatus_spec 9 (by decide)).2.1⟩

/-! ## SKU preview generation (AddProductPage.tsx lines 57-102) -/

/-- JS `String.prototype.trim`: drop whitespace from both ends. -/
def trimChars (s : List Char) : List Char :=
  ((s.dropWhile Char.isWhitespace).reverse.dropWhile Char.isWhitespace).reverse

/-- `s.trim()` as a string-to-string operation. -/
def jsTrim (s : String) : String := String.mk (trimChars s.toList)

/-- `s.toLowerCase()` (ASCII, enough for the inputs involved). -/
def jsToLower (s : String) : String := String.mk (s.toList.map Char.toLower)

/-- `String.split(/\s+/)` on a character list: splitting at every
whitespace character produces the same word list as splitting at runs,
once empty fragments are filtered out (JS `.filter(Boolean)`). -/
def splitWsAux : List Char → List (List Char)
  | [] => [[]]
  | c :: cs =>
    if c.isWhitespace then [] :: splitWsAux cs
    else
      match splitWsAux cs with
      | [] => [[c]]
      | w :: ws => (c :: w) :: ws

/-- `word.match(/\d+/)`: the first maximal run of consecutive digits,
`none` when the word has no digit. -/
def firstDigitRun : List Char → Option (List Char)
  | [] => none
  | c :: cs =>
    if c.isDigit then some (c :: cs.takeWhile Char.isDigit)
    else firstDigitRun cs

/-- `productName.replace(/[^a-zA-Z0-9\s]/g, '').split(/\s+/).filter(Boolean)`:
strip every character that is neither alphanumeric nor whitespace, then
split into nonempty whitespace-separated words. -/
def skuWords (productName : String) : List (List Char) :=
  (splitWsAux (productName.toList.filter (fun ch => ch.isAlphanum || ch.isWhitespace))).filter
    (fun w => w ≠ [])

/-- The `words.forEach` accumulation: `initials` collects the first
character of each word that starts with an ASCII letter; `numbers`
concatenates the first digit run of each word that has one. -/
def initialsNumbers (words : List (List Char)) : List Char × List Char :=
  words.foldl
    (fun acc word =>
      let initials :=
        match word with
        | c :: _ => if c.isAlpha then acc.1 ++ [c] else acc.1
        | [] => acc.1
      let numbers :=
        match firstDigitRun word with
        | some run => acc.2 ++ run
        | none => acc.2
      (initials, numbers))
    ([], [])

/-- `let code = (initials + numbers).substring(0, 10)`. -/
def rawCode (productName : String) : List Char :=
  let p := initialsNumbers (skuWords productName)
  (p.1 ++ p.2).take 10

/-- `if (code.length < 2) code = code.padEnd(4, 'P')`. -/
def baseCode (productName : String) : List Char :=
  let code := rawCode productName
  if code.length < 2 then code ++ List.replicate (4 - code.length) 'P' else code

/-- The color part: `color.length <= 5 ? color.substring(0, 3) :
color.substring(0, 3)` (both branches take the first 3 characters),
then `.toUpperCase()`. -/
def colorSegment (color : String) : String :=
  let colorCode :=
    if color.length ≤ 5 then String.mk (color.toList.take 3)
    else String.mk (color.toList.take 3)
  String.mk (colorCode.toList.map Char.toUpper)

/-- The `sizeMap` literal of the source. -/
def sizeMap : List (String × String) :=
  [("extra small", "XS"), ("small", "S"), ("medium", "M"),
   ("large", "L"), ("extra large", "XL"), ("xxl", "XXL")]

/-- The size part: look up `size.toLowerCase().trim()` in `sizeMap`,
fall back to the first digit run of `size`, then to its first 3
characters; finally `.toUpperCase()`. -/
def sizeSegment (size : String) : String :=
  let sizeLower := jsTrim (jsToLower size)
  let sizeCode :=
    match sizeMap.lookup sizeLower with
    | some code => code
    | none =>
      match firstDigitRun size.toList with
      | some run => String.mk run
      | none => String.mk (size.toList.take 3)
  String.mk (sizeCode.toList.map Char.toUpper)

/-- `generateSkuPreview` (AddProductPage.tsx lines 57-102).  An empty or
whitespace-only product name returns `'PROD'` at once; otherwise the
upper-cased code plus the optional color and size segments joined by
`'-'`.  A segment is appended only when the optional string is truthy in
JavaScript, i.e. present and nonempty. -/
def generateSkuPreview (productName : String) (color : Option String)
    (size : Option String) : String :=
  if jsTrim productName = "" then "PROD"
  else
    let code := String.mk ((baseCode productName).map Char.toUpper)
    let parts := [code]
    let parts :=
      match color with
      | some c => if c ≠ "" then parts ++ [colorSegment c] else parts
      | none => parts
    let parts :=
      match size with
      | some sz => if sz ≠ "" then parts ++ [sizeSegment sz] else parts
      | none => parts
    String.intercalate "-" parts

/-- C2, counterexample: on `"Classic Cotton T-Shirt 2"` with color `"Red"`
and size `"Large"` the generator returns `"CCT2-RED-L"`, not
`"CCTS2-RED-L"`: the hyphen of `"T-Shirt"` is stripped (not replaced by a
space), fusing it into the single word `"TShirt"`. -/
theorem generateSku_example_counterexample :
    generateSkuPreview "Classic Cotton T-Shirt 2" (some "Red") (some "Large")
        = "CCT2-RED-L"
    ∧ ("CCT2-RED-L" : String) ≠ "CCTS2-RED-L" := by
  constructor
  · rfl
  · decide

/-- C2, amended: `generateSku("Classic Cotton T-Shirt 2", "Red", "Large")`
has initials `"CCT"` (hyphen removal fuses `"T-Shirt"` into one word),
numbers `"2"`, base `"CCT2"`, color `"RED"`, size `"L"`, and returns
`"CCT2-RED-L"`. -/
theorem generateSku_example_spec :
    initialsNumbers (skuWords "Classic Cotton T-Shirt 2")
        = ("CCT".toList, "2".toList)
    ∧ baseCode "Classic Cotton T-Shirt 2" = "CCT2".toList
    ∧ colorSegment "Red" = "RED"
    ∧ sizeSegment "Large" = "L"
    ∧ generateSkuPreview "Classic Cotton T-Shirt 2" (some "Red") (some "Large")
        = "CCT2-RED-L" := by
  refine ⟨rfl, rfl, rfl, rfl, rfl⟩

/-- C3, counterexample: the empty product name short-circuits to
`"PROD"` before any padding is computed, so the result is not
`"PPPP"`. -/
theorem generateSku_padding_counterexample :
    generateSkuPreview "" none none = "PROD"
    ∧ ("PROD" : String) ≠ "PPPP" := by
  constructor
  · rfl
  · decide

/-- C3, amended: an empty product name bypasses padding and yields
`"PROD"`; for a name that survives trimming, whenever the computed code
has fewer than 2 characters it is right-padded with `'P'` to exactly 4
characters — e.g. `generateSku("-")` (nonempty but entirely
non-alphanumeric) returns `"PPPP"`. -/
theorem generateSku_padding_spec :
    generateSkuPreview "" none none = "PROD"
    ∧ generateSkuPreview "-" none none = "PPPP"
    ∧ (∀ productName : String, (rawCode productName).length < 2 →
        (baseCode productName).length = 4
        ∧ baseCode productName
            = rawCode productName
              ++ List.replicate (4 - (rawCode productName).length) 'P') := by
  refine ⟨rfl, rfl, fun productName h => ?_⟩
  constructor
  · simp only [baseCode, h, if_true]
    simp [List.length_append]
    omega
  · simp only [baseCode, h, if_true]

/-- Witness for the padding clause of C3 at product name `"-"`. -/
theorem generateSku_padding_spec_witness :
    (rawCode "-").length < 2 ∧ (baseCode "-").length = 4 :=
  ⟨by decide, (generateSku_padding_spec.2.2 "-" (by decide)).1⟩

/-- C10: whenever the product name trims to the empty string, the
generator returns exactly `"PROD"`, whatever the color and size are; in
particular `generateSku("", "Red", "Large") = "PROD"`. -/
theorem generateSku_emptyName_spec :
    (∀ (productName : String) (color size : Option String),
        jsTrim productName = "" →
          generateSkuPreview productName color size = "PROD")
    ∧ generateSkuPreview "" (some "Red") (some "Large") = "PROD" := by
  constructor
  · intro productName color size h
    simp [generateSkuPreview, h]
  · rfl

/-- Witness for C10 at the whitespace-only name `"   "` with color and
size supplied. -/
theorem generateSku_emptyName_spec_witness :
    jsTrim "   " = ""
    ∧ generateSkuPreview "   " (some "Red") (some "Large") = "PROD" :=
  ⟨by decide, generateSku_emptyName_spec.1 "   " (some "Red") (some "Large") (by decide)⟩

/-! ## Row expansion and inventory fetching (LoginPage.tsx lines 412-444) -/

/-- `new Set([...prev, x])` on a duplicate-free list: append `x` unless
already present. -/
def insertNew (x : String) (l : List String) : List String :=
  if x ∈ l then l else l ++ [x]

theorem mem_insertNew (x : String) (l : List String) : x ∈ insertNew x l := by
  unfold insertNew
  by_cases h : x ∈ l <;> simp [h]

/-- The component state read and written by `toggleExpand`:
`expandedProducts`, `loadingInventory` (both `Set<string>`, modelled as
duplicate-free lists) and `inventoryCache`. -/
structure PageState where
  expandedProducts : List String
  loadingInventory : List String
  inventoryCache : InventoryCache
deriving Repr, DecidableEq

/-- `variants.filter((v) => v.sku && !inventoryCache[v.sku]).map((v) => v.sku)`:
the SKUs needing inventory data — nonempty (JS truthiness of `v.sku`) and
not yet cached. -/
def skusToFetch (cache : InventoryCache) (variants : List ProductVariant) : List String :=
  (variants.filter
      (fun v => (v.sku != "") && (lookupSku cache v.sku).isNone)).map
    (fun v => v.sku)

/-- Outcome of the awaited `inventoryApi.getBatch` call: a response map
(the backend may omit requested SKUs from it) or a thrown error. -/
inductive FetchResult where
  | success (data : InventoryCache)
  | failure
deriving Repr, DecidableEq

/-- `toggleExpand` run to completion with the fetch (if any) resolved by
`result`: returns the final component state together with the argument of
the single `getBatch` call, `none` when no network call is made.
`loadingInventory` is unchanged overall (the product id is added and then
removed in the `finally` block). -/
def toggleExpand (s : PageState) (productId : String) (variants : List ProductVariant)
    (result : FetchResult) : PageState × Option (List String) :=
  if productId ∈ s.expandedProducts then
    ({ s with expandedProducts := s.expandedProducts.erase productId }, none)
  else
    let newExpanded := insertNew productId s.expandedProducts
    let toFetch := skusToFetch s.inventoryCache variants
    if toFetch = [] then
      ({ s with expandedProducts := newExpanded }, none)
    else
      match result with
      | FetchResult.success data =>
          ({ expandedProducts := newExpanded,
             loadingInventory := s.loadingInventory,
             inventoryCache := mergeCache s.inventoryCache data }, some toFetch)
      | FetchResult.failure =>
          ({ expandedProducts := newExpanded,
             loadingInventory := s.loadingInventory,
             inventoryCache := s.inventoryCache }, some toFetch)

/-- When every variant SKU is nonempty, `skusToFetch` is exactly the
requested SKU list minus the cache's keys. -/
theorem skusToFetch_eq_filter (cache : InventoryCache) :
    ∀ variants : List ProductVariant, (∀ v ∈ variants, v.sku ≠ "") →
      skusToFetch cache variants
        = (variants.map (fun v => v.sku)).filter
            (fun sku => (lookupSku cache sku).isNone) := by
  intro variants
  induction variants with
  | nil => intro _; rfl
  | cons v vs ih =>
    intro hsku
    have hv : (v.sku != "") = true := by
      simp only [bne_iff_ne, ne_eq]
      exact hsku v (by simp)
    have hrest := ih (fun w hw => hsku w (by simp [hw]))
    simp only [skusToFetch, List.map_cons, List.filter_cons] at hrest ⊢
    by_cases hl : (lookupSku cache v.sku).isNone
    · simp [hv, hl, hrest]
    · simp [hv, hl, hrest]

/-- Every variant cached means nothing to fetch. -/
theorem skusToFetch_nil_of_cached (cache : InventoryCache)
    (variants : List ProductVariant)
    (hcached : ∀ v ∈ variants, (lookupSku cache v.sku).isSome) :
    skusToFetch cache variants = [] := by
  unfold skusToFetch
  rw [List.map_eq_nil_iff, List.filter_eq_nil_iff]
  intro v hv hp
  have h := hcached v hv
  rw [Bool.and_eq_true, Option.isNone_iff_eq_none] at hp
  rw [hp.2] at h
  simp at h

/-- Example cache containing only SKU `"A-1"`. -/
def cacheA1 : InventoryCache := [("A-1", ⟨"A-1", 5, 0⟩)]

/-- Component state with `"A-1"` cached and nothing expanded. -/
def stateA1 : PageState := ⟨[], [], cacheA1⟩

/-- Variants with SKUs `"A-1"` and `"B-2"`. -/
def variantsAB : List ProductVariant :=
  [⟨"A-1", none, none⟩, ⟨"B-2", none, none⟩]

/-- C4: expanding a product computes the missing SKUs as the requested
SKUs minus the cache's keys; no network call when nothing is missing,
otherwise exactly one `getBatch` whose argument is exactly the missing
list; concretely, with `"A-1"` cached, expanding on `{"A-1","B-2"}`
issues one call requesting only `["B-2"]`. -/
theorem toggleExpand_fetch_spec (s : PageState) (productId : String)
    (variants : List ProductVariant) (result : FetchResult)
    (hexp : productId ∉ s.expandedProducts)
    (hsku : ∀ v ∈ variants, v.sku ≠ "") :
    ((toggleExpand s productId variants result).2
        = (if ((variants.map (fun v => v.sku)).filter
                (fun sku => (lookupSku s.inventoryCache sku).isNone)) = []
           then none
           else some ((variants.map (fun v => v.sku)).filter
                (fun sku => (lookupSku s.inventoryCache sku).isNone))))
    ∧ (toggleExpand stateA1 "P" variantsAB result).2 = some ["B-2"] := by
  constructor
  · rw [← skusToFetch_eq_filter s.inventoryCache variants hsku]
    unfold toggleExpand
    rw [if_neg hexp]
    by_cases h : skusToFetch s.inventoryCache variants = []
    · simp [h]
    · cases result <;> simp [h]
  · cases result <;> rfl

/-- Witness for C4 at the concrete `"A-1"`-cached state. -/
theorem toggleExpand_fetch_spec_witness :
    ("P" ∉ stateA1.expandedProducts ∧ ∀ v ∈ variantsAB, v.sku ≠ "")
    ∧ (toggleExpand stateA1 "P" variantsAB FetchResult.failure).2 = some ["B-2"] :=
  ⟨⟨by decide, by decide⟩,
   (toggleExpand_fetch_spec stateA1 "P" variantsAB FetchResult.failure
      (by decide) (by decide)).2⟩

/-- C7: when the batch fetch fails, the cache is left unchanged and the
toggled product still ends up expanded. -/
theorem toggleExpand_failure_spec (s : PageState) (productId : String)
    (variants : List ProductVariant) (hexp : productId ∉ s.expandedProducts) :
    ((toggleExpand s productId variants FetchResult.failure).1).inventoryCache
        = s.inventoryCache
    ∧ productId ∈
        ((toggleExpand s productId variants FetchResult.failure).1).expandedProducts := by
  unfold toggleExpand
  rw [if_neg hexp]
  by_cases h : skusToFetch s.inventoryCache variants = []
  · simp [h, mem_insertNew]
  · simp [h, mem_insertNew]

/-- Witness for C7: failed fetch for `"B-2"` from the empty state. -/
theorem toggleExpand_failure_spec_witness :
    "P1" ∉ (PageState.mk [] [] []).expandedProducts
    ∧ ((toggleExpand (PageState.mk [] [] []) "P1" [⟨"B-2", none, none⟩]
          FetchResult.failure).1).inventoryCache
        = (PageState.mk [] [] []).inventoryCache :=
  ⟨by decide,
   (toggleExpand_failure_spec (PageState.mk [] [] []) "P1" [⟨"B-2", none, none⟩]
      (by decide)).1⟩

/-- C8: collapsing and re-expanding a product whose variants are all
cached issues no network call in either step, leaves the cache unchanged,
and ends with the product expanded. -/
theorem collapse_reexpand_spec (s : PageState) (productId : String)
    (variants : List ProductVariant) (r1 r2 : FetchResult)
    (hexp : productId ∈ s.expandedProducts)
    (hnodup : s.expandedProducts.Nodup)
    (hcached : ∀ v ∈ variants, (lookupSku s.inventoryCache v.sku).isSome) :
    (toggleExpand s productId variants r1).2 = none
    ∧ ((toggleExpand s productId variants r1).1).inventoryCache = s.inventoryCache
    ∧ (toggleExpand ((toggleExpand s productId variants r1).1)
          productId variants r2).2 = none
    ∧ ((toggleExpand ((toggleExpand s productId variants r1).1)
          productId variants r2).1).inventoryCache = s.inventoryCache
    ∧ productId ∈ ((toggleExpand ((toggleExpand s productId variants r1).1)
          productId variants r2).1).expandedProducts := by
  have hs1 : toggleExpand s productId variants r1
      = ({ s with expandedProducts := s.expandedProducts.erase productId }, none) := by
    unfold toggleExpand
    rw [if_pos hexp]
  have hnotmem : productId ∉ s.expandedProducts.erase productId :=
    hnodup.not_mem_erase
  have hfetch : skusToFetch s.inventoryCache variants = [] :=
    skusToFetch_nil_of_cached s.inventoryCache variants hcached
  refine ⟨by rw [hs1], by rw [hs1], ?_, ?_, ?_⟩
  · rw [hs1]
    unfold toggleExpand
    rw [if_neg hnotmem]
    simp [hfetch]
  · rw [hs1]
    unfold toggleExpand
    rw [if_neg hnotmem]
    simp [hfetch]
  · rw [hs1]
    unfold toggleExpand
    rw [if_neg hnotmem]
    simp [hfetch, mem_insertNew]

/-- Witness for C8: `"P"` expanded with `"A-1"` cached, toggled twice. -/
theorem collapse_reexpand_spec_witness :
    ("P" ∈ (PageState.mk ["P"] [] cacheA1).expandedProducts
      ∧ (PageState.mk ["P"] [] cacheA1).expandedProducts.Nodup)
    ∧ (toggleExpand (PageState.mk ["P"] [] cacheA1) "P"
          [⟨"A-1", none, none⟩] FetchResult.failure).2 = none :=
  ⟨⟨by decide, by decide⟩,
   (collapse_reexpand_spec (PageState.mk ["P"] [] cacheA1) "P"
      [⟨"A-1", none, none⟩] FetchResult.failure FetchResult.failure
      (by decide) (by decide) (by decide)).1⟩

/-- Looking a key up in the spread `{ ...prev, ...data }`: the `data`
binding wins, falling back to `prev`. -/
theorem lookupSku_mergeCache (prev data : InventoryCache) (k : String) :
    lookupSku (mergeCache prev data) k
      = (lookupSku data k).or (lookupSku prev k) := by
  induction data with
  | nil => simp [mergeCache, lookupSku]
  | cons p ps ih =>
    unfold mergeCache lookupSku at ih ⊢
    rw [List.cons_append]
    by_cases h : k == p.1
    · simp [List.lookup, h]
    · simp only [List.lookup, h]
      exact ih

/-- C6, counterexample: fetching SKU `"B-2"` succeeds but the backend
omits it from the response map; the merged cache still lacks `"B-2"`, so
`hasInventoryLoaded` stays `false` after the successful fetch. -/
theorem fetchOmission_counterexample :
    (toggleExpand (PageState.mk [] [] []) "P1" [⟨"B-2", none, none⟩]
          (FetchResult.success [])).2 = some ["B-2"]
    ∧ hasInventoryLoaded
        ((toggleExpand (PageState.mk [] [] []) "P1" [⟨"B-2", none, none⟩]
            (FetchResult.success [])).1).inventoryCache
        [⟨"B-2", none, none⟩] = false := by
  refine ⟨rfl, rfl⟩

/-- C6, amended: after a successful fetch, a variant's SKU counts as
loaded exactly when it is a key of the response map or was already
cached: if every variant SKU (all nonempty) is covered this way,
`hasInventoryLoaded` becomes `true`; an SKU omitted from the response and
absent from the cache keeps `hasInventoryLoaded` at `false` (aggregation
still counts it as `0`, but it is not marked loaded). -/
theorem fetchOmission_spec (s : PageState) (productId : String)
    (variants : List ProductVariant) (data : InventoryCache)
    (hexp : productId ∉ s.expandedProducts) :
    ((∀ v ∈ variants, v.sku ≠ "") →
      (∀ v ∈ variants,
          (lookupSku data v.sku).isSome ∨ (lookupSku s.inventoryCache v.sku).isSome) →
      hasInventoryLoaded
          ((toggleExpand s productId variants (FetchResult.success data)).1).inventoryCache
          variants = true)
    ∧ (∀ v ∈ variants, lookupSku data v.sku = none →
        lookupSku s.inventoryCache v.sku = none →
        hasInventoryLoaded
            ((toggleExpand s productId variants (FetchResult.success data)).1).inventoryCache
            variants = false) := by
  have hbranch :
      ((toggleExpand s productId variants (FetchResult.success data)).1).inventoryCache
        = (if skusToFetch s.inventoryCache variants = [] then s.inventoryCache
           else mergeCache s.inventoryCache data) := by
    unfold toggleExpand
    rw [if_neg hexp]
    by_cases h : skusToFetch s.inventoryCache variants = [] <;> simp [h]
  constructor
  · intro hsku hcov
    rw [hasInventoryLoaded, List.all_eq_true]
    intro v hv
    by_cases h : skusToFetch s.inventoryCache variants = []
    · rw [hbranch, if_pos h]
      by_contra hns
      have hnone : lookupSku s.inventoryCache v.sku = none := by
        cases hl : lookupSku s.inventoryCache v.sku with
        | none => rfl
        | some w => exact absurd (by simp [hl]) hns
      have hpv : ((v.sku != "") && (lookupSku s.inventoryCache v.sku).isNone) = true := by
        simp [bne_iff_ne, hsku v hv, hnone]
      have hmem : v.sku ∈ skusToFetch s.inventoryCache variants := by
        unfold skusToFetch
        exact List.mem_map.mpr ⟨v, List.mem_filter.mpr ⟨hv, hpv⟩, rfl⟩
      rw [h] at hmem
      exact absurd hmem (List.not_mem_nil v.sku)
    · rw [hbranch, if_neg h, lookupSku_mergeCache]
      rcases hcov v hv with hc | hc
      · rw [Option.isSome_iff_exists] at hc
        obtain ⟨w, hw⟩ := hc
        simp [hw]
      · cases hd : lookupSku data v.sku <;> simp [hd, hc]
  · intro v hv hdata hcache
    have hnone :
        lookupSku
          ((toggleExpand s productId variants (FetchResult.success data)).1).inventoryCache
          v.sku = none := by
      rw [hbranch]
      by_cases h : skusToFetch s.inventoryCache variants = []
      · rw [if_pos h]; exact hcache
      · rw [if_neg h, lookupSku_mergeCache, hdata, hcache]; rfl
    rw [hasInventoryLoaded, Bool.eq_false_iff]
    intro hall
    rw [List.all_eq_true] at hall
    have hv2 := hall v hv
    rw [hnone] at hv2
    simp at hv2

/-- Witness for the amended C6: from the empty state, fetching `"B-2"`
with a response that does contain it marks the variant loaded. -/
theorem fetchOmission_spec_witness :
    "P1" ∉ (PageState.mk [] [] []).expandedProducts
    ∧ hasInventoryLoaded
        ((toggleExpand (PageState.mk [] [] []) "P1" [⟨"B-2", none, none⟩]
            (FetchResult.success [("B-2", ⟨"B-2", 4, 0⟩)])).1).inventoryCache
        [⟨"B-2", none, none⟩] = true :=
  ⟨by decide,
   (fetchOmission_spec (PageState.mk [] [] []) "P1" [⟨"B-2", none, none⟩]
      [("B-2", ⟨"B-2", 4, 0⟩)] (by decide)).1
     (by decide) (by decide)⟩

/-! ## Interleavings of toggles and fetch completions

`toggleExpand` suspends at the awaited `getBatch` call: the state updates
after the `await` (the cache merge, the `finally` cleanup and the final
`setExpandedProducts(newExpanded)` with the snapshot captured before the
`await`) run only when that fetch resolves.  The small-step system below
makes the suspension explicit so that interleaved toggles and completions
can be examined. -/

/-- One in-flight `getBatch` call together with the continuation data its
closure captured: the product id and the `newExpanded` snapshot. -/
structure PendingFetch where
  productId : String
  skus : List String
  newExpanded : List String
deriving Repr, DecidableEq

/-- Full component state including the in-flight fetches. -/
structure AppState where
  expandedProducts : List String
  loadingInventory : List String
  inventoryCache : InventoryCache
  outstanding : List PendingFetch
deriving Repr, DecidableEq

/-- Scheduler events: a user toggle, or the resolution (success or
failure) of the `idx`-th outstanding fetch. -/
inductive Event where
  | toggle (productId : String) (variants : List ProductVariant)
  | resolve (idx : Nat) (result : FetchResult)
deriving Repr

/-- The synchronous part of `toggleExpand`, up to the `await`: collapse
updates `expandedProducts` at once; expansion with nothing to fetch does
too; expansion with missing SKUs only records the in-flight fetch and
marks the product as loading — `expandedProducts` is untouched until the
fetch resolves. -/
def stepToggle (s : AppState) (productId : String)
    (variants : List ProductVariant) : AppState :=
  if productId ∈ s.expandedProducts then
    { s with expandedProducts := s.expandedProducts.erase productId }
  else
    let newExpanded := insertNew productId s.expandedProducts
    let toFetch := skusToFetch s.inventoryCache variants
    if toFetch = [] then
      { s with expandedProducts := newExpanded }
    else
      { s with
        loadingInventory := insertNew productId s.loadingInventory,
        outstanding := s.outstanding ++ [⟨productId, toFetch, newExpanded⟩] }

/-- Resolution of an outstanding fetch: on success the response map is
spread into the cache; either way the `finally` block clears the loading
mark and `setExpandedProducts(newExpanded)` installs the snapshot. -/
def stepResolve (s : AppState) (idx : Nat) (result : FetchResult) : AppState :=
  match s.outstanding.get? idx with
  | none => s
  | some pf =>
      { expandedProducts := pf.newExpanded,
        loadingInventory := s.loadingInventory.erase pf.productId,
        inventoryCache :=
          match result with
          | FetchResult.success data => mergeCache s.inventoryCache data
          | FetchResult.failure => s.inventoryCache,
        outstanding := s.outstanding.eraseIdx idx }

/-- One scheduler step. -/
def step (s : AppState) : Event → AppState
  | Event.toggle productId variants => stepToggle s productId variants
  | Event.resolve idx result => stepResolve s idx result

/-- Run a sequence of events. -/
def run (s : AppState) (events : List Event) : AppState :=
  events.foldl step s

/-- The initial state: nothing expanded, cached or in flight. -/
def initialState : AppState := ⟨[], [], [], []⟩

/-- How many outstanding fetches currently request `sku`. -/
def fetchesInFlightFor (s : AppState) (sku : String) : Nat :=
  (s.outstanding.filter (fun pf => pf.skus.contains sku)).length

/-- Toggling product `"P1"` (single variant SKU `"S"`) twice in a row
before its fetch resolves. -/
def doubleToggleTrace : List Event :=
  [Event.toggle "P1" [⟨"S", none, none⟩],
   Event.toggle "P1" [⟨"S", none, none⟩]]

/-- C5, counterexample: a reachable interleaving — two toggles of the
same product before its fetch resolves — leaves two simultaneously
outstanding fetches both requesting SKU `"S"`: the first toggle's fetch
is still in flight, yet `expandedProducts` and the cache are unchanged,
so the second toggle issues a duplicate fetch for `"S"`. -/
theorem duplicateFetch_counterexample :
    (run initialState doubleToggleTrace).outstanding.map PendingFetch.skus
        = [["S"], ["S"]]
    ∧ fetchesInFlightFor (run initialState doubleToggleTrace) "S" = 2 := by
  refine ⟨rfl, rfl⟩

/-- C5, amended: fetch de-duplication happens only against the cache,
not against in-flight requests — any fetch a toggle adds to the
outstanding list requests only SKUs that are nonempty and absent from
the cache at issue time (so completed fetches are never repeated), but
an SKU whose own fetch is still in flight can be requested again by a
second toggle. -/
theorem fetch_dedup_spec (s : AppState) (productId : String)
    (variants : List ProductVariant) (pf : PendingFetch)
    (hpf : pf ∈ (stepToggle s productId variants).outstanding) :
    pf ∈ s.outstanding
    ∨ ∀ sku ∈ pf.skus, sku ≠ "" ∧ lookupSku s.inventoryCache sku = none := by
  unfold stepToggle at hpf
  by_cases hexp : productId ∈ s.expandedProducts
  · rw [if_pos hexp] at hpf
    exact Or.inl hpf
  · rw [if_neg hexp] at hpf
    by_cases hfetch : skusToFetch s.inventoryCache variants = []
    · rw [if_pos hfetch] at hpf
      exact Or.inl hpf
    · rw [if_neg hfetch] at hpf
      have hpf2 : pf ∈ s.outstanding
          ++ [⟨productId, skusToFetch s.inventoryCache variants,
              insertNew productId s.expandedProducts⟩] := hpf
      rw [List.mem_append, List.mem_singleton] at hpf2
      rcases hpf2 with hold | hnew
      · exact Or.inl hold
      · right
        intro sku hsku
        rw [hnew] at hsku
        simp only at hsku
        have hm := hsku
        unfold skusToFetch at hm
        rw [List.mem_map] at hm
        obtain ⟨v, hv, rfl⟩ := hm
        rw [List.mem_filter] at hv
        have hp := hv.2
        rw [Bool.and_eq_true, bne_iff_ne, Option.isNone_iff_eq_none] at hp
        exact hp

/-- Witness for the amended C5: the fetch issued by toggling `"P1"` from
the empty state requests only uncached SKUs. -/
theorem fetch_dedup_spec_witness :
    (⟨"P1", ["S"], ["P1"]⟩ : PendingFetch)
        ∈ (stepToggle initialState "P1" [⟨"S", none, none⟩]).outstanding
    ∧ ((⟨"P1", ["S"], ["P1"]⟩ : PendingFetch) ∈ initialState.outstanding
        ∨ ∀ sku ∈ (["S"] : List String),
            sku ≠ "" ∧ lookupSku initialState.inventoryCache sku = none) :=
  ⟨by decide,
   fetch_dedup_spec initialState "P1" [⟨"S", none, none⟩] ⟨"P1", ["S"], ["P1"]⟩
     (by decide)⟩

end AdminUI
